import Mathlib

/-!
Verification development for the RCF-R-Quotas access-and-permission model.

The definitions below shallowly embed the server-side access model of
`src/server/storage.ts` and `src/server/routes.ts`, together with the
pricing calculator of `src/client/src/pages/PhotoEstimate.tsx`.
Database tables are embedded as lists of row records; the drizzle query
combinators `select/where/limit(1)/orderBy` become `filter`, `find?`,
`head?` and a stable structural sort.  JavaScript truthiness on values
coming from `JSON.parse` is made explicit through a small JSON value
type and a `truthy` coercion.
-/

namespace RCF

/-- A JSON value as produced by `JSON.parse`: null, booleans, numbers,
strings, arrays, and objects (ordered key/value lists). -/
inductive JValue where
  | jnull
  | jbool (b : Bool)
  | jnum (n : Int)
  | jstr (s : String)
  | jarr (elems : List JValue)
  | jobj (fields : List (String × JValue))

/-- JavaScript truthiness of a parsed JSON value: `null`, `false`, `0`
and the empty string are falsy; arrays and objects are always truthy. -/
def truthy : JValue → Bool
  | .jnull => false
  | .jbool b => b
  | .jnum n => n != 0
  | .jstr s => s != ""
  | .jarr _ => true
  | .jobj _ => true

/-- Property lookup on a JSON object, last occurrence of a key winning,
mirroring the behaviour of `JSON.parse` and of JS object spread. -/
def objGet (fields : List (String × JValue)) (key : String) : Option JValue :=
  (fields.reverse.find? (fun kv => kv.fst == key)).map (·.snd)

/-- The five-flag permission record of the shared schema
(`canManageUsers`, `canViewAllSpecialties`, `canViewPrices`,
`canEditPrices`, `canAudit`), with definite boolean flags. -/
structure Permissions where
  canManageUsers : Bool
  canViewAllSpecialties : Bool
  canViewPrices : Bool
  canEditPrices : Bool
  canAudit : Bool
deriving Repr, DecidableEq

/-- A permission record as it exists right after `parsePermissions`
merged raw JSON over the baseline: each of the five flags is present but
its value is still an arbitrary JSON value. -/
structure PermissionsJ where
  canManageUsers : JValue
  canViewAllSpecialties : JValue
  canViewPrices : JValue
  canEditPrices : JValue
  canAudit : JValue

/-- Modelled from the spec: the shared schema module exporting
`DEFAULT_EMPLOYEE_PERMISSIONS` is not part of the repository snapshot
(only its importers are).  The spec describes the newly-added-employee
baseline as all-false permissions ("Default for a newly added employee:
all false ..."; failure semantics degrade to "all-false permissions"). -/
def DEFAULT_EMPLOYEE_PERMISSIONS : Permissions :=
  ⟨false, false, false, false, false⟩

/-- View a definite boolean permission record as a JSON-valued one. -/
def Permissions.toJ (p : Permissions) : PermissionsJ :=
  ⟨.jbool p.canManageUsers, .jbool p.canViewAllSpecialties,
   .jbool p.canViewPrices, .jbool p.canEditPrices, .jbool p.canAudit⟩

/-- Collapse a JSON-valued permission record to definite booleans by
JS truthiness, as happens at every `if (perms.flag)` use site. -/
def PermissionsJ.toB (p : PermissionsJ) : Permissions :=
  ⟨truthy p.canManageUsers, truthy p.canViewAllSpecialties,
   truthy p.canViewPrices, truthy p.canEditPrices, truthy p.canAudit⟩

/-- Modelled from the spec: `capPermissions` is exported by the shared
schema module, which is absent from the repository snapshot.  Per spec
§4.1 (and the changelog note in `Dashboard.tsx`), each flag of the
effective record is the logical AND of the job-level flag and the
company-ceiling flag. -/
def capPermissions (job company : Permissions) : Permissions :=
  ⟨job.canManageUsers && company.canManageUsers,
   job.canViewAllSpecialties && company.canViewAllSpecialties,
   job.canViewPrices && company.canViewPrices,
   job.canEditPrices && company.canEditPrices,
   job.canAudit && company.canAudit⟩

/-- Spread of a parsed JSON value over the baseline record, as in
`{ ...DEFAULT_EMPLOYEE_PERMISSIONS, ...parsed }`: only an object
contributes values under the five flag keys; spreading null, booleans,
numbers, strings or arrays contributes nothing under those keys. -/
def mergePermissions (base : PermissionsJ) : JValue → PermissionsJ
  | .jobj fields =>
    ⟨(objGet fields "canManageUsers").getD base.canManageUsers,
     (objGet fields "canViewAllSpecialties").getD base.canViewAllSpecialties,
     (objGet fields "canViewPrices").getD base.canViewPrices,
     (objGet fields "canEditPrices").getD base.canEditPrices,
     (objGet fields "canAudit").getD base.canAudit⟩
  | _ => base

/-- `parsePermissions` from `src/server/storage.ts` (lines 22-30).  The
`JSON.parse` library call is abstracted as a `jsonParse` oracle whose
`none` result stands for a thrown (and caught) parse error.  A `none`
raw value or the empty string is falsy (`if (!raw)`), yielding a copy of
the baseline. -/
def parsePermissions (jsonParse : String → Option JValue) :
    Option String → PermissionsJ
  | none => DEFAULT_EMPLOYEE_PERMISSIONS.toJ
  | some s =>
    if s = "" then DEFAULT_EMPLOYEE_PERMISSIONS.toJ
    else
      match jsonParse s with
      | none => DEFAULT_EMPLOYEE_PERMISSIONS.toJ
      | some v => mergePermissions DEFAULT_EMPLOYEE_PERMISSIONS.toJ v

/-- Row of `companies` (the columns read by the access model). -/
structure CompanyRow where
  id : Nat
  tradeId : Option Nat
deriving Repr, DecidableEq

/-- Row of `specialties` (the columns read by the access model). -/
structure SpecialtyRow where
  id : Nat
  tradeId : Nat
deriving Repr, DecidableEq

/-- Row of `user_specialties`. -/
structure UserSpecialtyRow where
  userId : Nat
  companyId : Nat
  specialtyId : Nat
deriving Repr, DecidableEq

/-- Row of `company_users`; `permissions` is the raw JSON text column. -/
structure CompanyUserRow where
  companyId : Nat
  userId : Nat
  role : String
  isActive : Bool
  permissions : Option String
deriving Repr, DecidableEq

/-- Row of `jobs` (the columns read by the access model; the remaining
descriptive columns of the table play no role in any claim). -/
structure JobRow where
  id : Nat
  companyId : Nat
  specialtyId : Option Nat
  status : String
  createdAt : Nat
deriving Repr, DecidableEq

/-- Row of `job_assignments`; `permissions` is the raw JSON text column. -/
structure JobAssignmentRow where
  jobId : Nat
  userId : Nat
  permissions : Option String
deriving Repr, DecidableEq

/-- Row of `services` (the columns read by the access model and the
price-redaction path); `unitPrice` is the numeric-as-string column,
`none` standing for JSON null in a response. -/
structure ServiceRow where
  id : Nat
  companyId : Nat
  specialtyId : Nat
  active : Bool
  unitPrice : Option String
deriving Repr, DecidableEq

/-- Row of `job_items` (the columns touched by price redaction). -/
structure JobItemRow where
  id : Nat
  jobId : Nat
  unitPrice : String
  lineTotal : String
deriving Repr, DecidableEq

/-- The database state the access model reads, together with the JSON
parsing oracle standing for the `JSON.parse` library function. -/
structure DB where
  jsonParse : String → Option JValue
  companies : List CompanyRow
  specialties : List SpecialtyRow
  userSpecialties : List UserSpecialtyRow
  companyUsers : List CompanyUserRow
  jobs : List JobRow
  jobItems : List JobItemRow
  jobAssignments : List JobAssignmentRow
  services : List ServiceRow

/-- Insert into a list sorted by a numeric key (ascending). -/
def insertByKey (key : α → Nat) (x : α) : List α → List α
  | [] => [x]
  | y :: rest =>
    if key x < key y then x :: y :: rest else y :: insertByKey key x rest

/-- Structural stable-enough sort by a numeric key, embedding the SQL
`ORDER BY ... ASC` of the drizzle queries. -/
def sortByKey (key : α → Nat) : List α → List α
  | [] => []
  | x :: rest => insertByKey key x (sortByKey key rest)

/-- `getCompanyTradeId` from `src/server/storage.ts` (lines 267-270):
`co?.tradeId || 0` — a missing company row or a null trade id collapses
to the sentinel `0`. -/
def getCompanyTradeId (db : DB) (companyId : Nat) : Nat :=
  match db.companies.find? (fun c => c.id == companyId) with
  | some co => (co.tradeId).getD 0
  | none => 0

/-- `getCompanyUserPermissions` from `src/server/storage.ts`
(lines 690-696): first membership row for the pair, defaulting to the
employee baseline when no row exists. -/
def getCompanyUserPermissions (db : DB) (companyId userId : Nat) : PermissionsJ :=
  match db.companyUsers.find? (fun cu => cu.companyId == companyId && cu.userId == userId) with
  | none => DEFAULT_EMPLOYEE_PERMISSIONS.toJ
  | some cu => parsePermissions db.jsonParse cu.permissions

/-- All specialty ids of the company's trade, as queried at
`src/server/storage.ts` lines 336-339. -/
def tradeSpecialtyIds (db : DB) (companyId : Nat) : List Nat :=
  (db.specialties.filter (fun s => s.tradeId == getCompanyTradeId db companyId)).map (·.id)

/-- The explicit specialty-assignment set for a user inside a company,
as queried at `src/server/storage.ts` lines 342-345. -/
def explicitSpecialtyIds (db : DB) (userId companyId : Nat) : List Nat :=
  (db.userSpecialties.filter (fun r => r.userId == userId && r.companyId == companyId)).map
    (·.specialtyId)

/-- `getAllowedSpecialtyIds` from `src/server/storage.ts`
(lines 329-346). -/
def getAllowedSpecialtyIds (db : DB) (userId companyId : Nat) (role : String) : List Nat :=
  if role = "SUPPORT" then []
  else
    if role = "OWNER" ∨ role = "ADMIN" then
      let perms := getCompanyUserPermissions db companyId userId
      if role = "OWNER" ∨ truthy perms.canViewAllSpecialties then
        tradeSpecialtyIds db companyId
      else
        explicitSpecialtyIds db userId companyId
    else
      explicitSpecialtyIds db userId companyId

/-- The `stats` record of `JobsListResponse`
(`src/server/storage.ts` lines 32-35): note there is a counter for five
of the six statuses but none for `SCHEDULED`. -/
structure JobsStats where
  total : Nat
  drafts : Nat
  sent : Nat
  approved : Nat
  inProgress : Nat
  done : Nat
deriving Repr, DecidableEq

/-- The all-zero stats record of the early returns. -/
def zeroStats : JobsStats := ⟨0, 0, 0, 0, 0, 0⟩

/-- `JobsListResponse` from `src/server/storage.ts`. -/
structure JobsListResponse where
  items : List JobRow
  stats : JobsStats
deriving Repr, DecidableEq

/-- The count-by-status reduction of `src/server/storage.ts`
lines 131-138. -/
def statsFor (jobsList : List JobRow) : JobsStats :=
  { total := jobsList.length
    drafts := (jobsList.filter (fun j => j.status == "DRAFT")).length
    sent := (jobsList.filter (fun j => j.status == "SENT")).length
    approved := (jobsList.filter (fun j => j.status == "APPROVED")).length
    inProgress := (jobsList.filter (fun j => j.status == "IN_PROGRESS")).length
    done := (jobsList.filter (fun j => j.status == "DONE")).length }

/-- `getJobs` from `src/server/storage.ts` (lines 93-140).  In the USER
branch the source also recomputes each job's capped permission record
and then discards it, returning shallow copies `{ ...j }`; the discarded
computation has no observable effect and the copy is the identity here. -/
def getJobs (db : DB) (userId : Nat) (role : String) (companyId : Nat) : JobsListResponse :=
  if role = "SUPPORT" then ⟨[], zeroStats⟩
  else if role = "OWNER" ∨ role = "ADMIN" then
    let jobsList := sortByKey (·.createdAt) (db.jobs.filter (fun j => j.companyId == companyId))
    ⟨jobsList, statsFor jobsList⟩
  else
    let assignments := db.jobAssignments.filter (fun a => a.userId == userId)
    let jobIds := assignments.map (·.jobId)
    let userSpecIds := getAllowedSpecialtyIds db userId companyId role
    if jobIds.length == 0 && userSpecIds.length == 0 then ⟨[], zeroStats⟩
    else
      let allJobs := sortByKey (·.createdAt) (db.jobs.filter (fun j => j.companyId == companyId))
      let jobsList := (allJobs.filter (fun j =>
        jobIds.contains j.id ||
        (match j.specialtyId with
         | some s => s != 0 && userSpecIds.contains s
         | none => false))).map (fun j => j)
      ⟨jobsList, statsFor jobsList⟩

/-- The value returned by `getJob` (`JobWithItems & { myRole? }` plus the
USER-path `permissions`/`companyPermissions` decorations). -/
structure JobDetail where
  job : JobRow
  items : List JobItemRow
  myRole : String
  permissions : Option Permissions
  companyPermissions : Option PermissionsJ

/-- `getJob` from `src/server/storage.ts` (lines 142-171).  The USER
path requires a direct assignment row; without one the job is not
returned at all.  When the effective (capped) `canViewPrices` flag is
falsy, every line item's `unitPrice` and `lineTotal` are overwritten
with `"0"` in fresh copies. -/
def getJob (db : DB) (id userId : Nat) (role : String) (companyId : Nat) : Option JobDetail :=
  if role = "SUPPORT" then none
  else
    match db.jobs.find? (fun j => j.id == id && j.companyId == companyId) with
    | none => none
    | some job =>
      let items := db.jobItems.filter (fun it => it.jobId == id)
      if role = "OWNER" ∨ role = "ADMIN" then
        some ⟨job, items, "OWNER", none, none⟩
      else
        match (db.jobAssignments.filter (fun a => a.jobId == id && a.userId == userId)).head? with
        | none => none
        | some assignment =>
          let companyPerms := getCompanyUserPermissions db companyId userId
          let jobPerms := parsePermissions db.jsonParse assignment.permissions
          let perms := capPermissions jobPerms.toB companyPerms.toB
          let redacted :=
            if perms.canViewPrices then items
            else items.map (fun it => { it with unitPrice := "0", lineTotal := "0" })
          some ⟨job, redacted, "USER", some perms, some companyPerms⟩

/-- `getServices` from `src/server/storage.ts` (lines 285-306).  The
`if (specialtyId)` guard is JS truthiness: an absent id or the id `0`
falls through to the `inArray` branch. -/
def getServices (db : DB) (companyId userId : Nat) (role : String)
    (specialtyId : Option Nat) : List ServiceRow :=
  if role = "SUPPORT" then []
  else
    let allowedIds := getAllowedSpecialtyIds db userId companyId role
    if allowedIds.length == 0 then []
    else
      match specialtyId with
      | some sid =>
        if sid ≠ 0 then
          if !allowedIds.contains sid then []
          else
            sortByKey (·.id) (db.services.filter (fun s =>
              s.companyId == companyId && s.active && s.specialtyId == sid))
        else
          sortByKey (·.id) (db.services.filter (fun s =>
            s.companyId == companyId && s.active && allowedIds.contains s.specialtyId))
      | none =>
        sortByKey (·.id) (db.services.filter (fun s =>
          s.companyId == companyId && s.active && allowedIds.contains s.specialtyId))

/-- `stripPrices` from `src/server/routes.ts` (lines 31-33): a new list
of fresh copies in which `unitPrice` is nulled out. -/
def stripPrices (servicesList : List ServiceRow) : List ServiceRow :=
  servicesList.map (fun s => { s with unitPrice := none })

/-- The body of the `GET` services-list route handler of
`src/server/routes.ts` (lines 424-432): fetch the visible services, then
either pass them through or redact prices depending on the caller's
company-level `canViewPrices` flag. -/
def servicesListRoute (db : DB) (companyId userId : Nat) (role : String) : List ServiceRow :=
  let servicesList := getServices db companyId userId role none
  let perms := getCompanyUserPermissions db companyId userId
  if truthy perms.canViewPrices then servicesList else stripPrices servicesList

/-- The material-tier keys of the pricing model (shared schema
`MATERIAL_TIERS`; the tier set also appears as the keys of the
`material_multiplier` column default in `src/server/migrate.ts`). -/
def MATERIAL_TIERS : List String := ["basic", "standard", "premium"]

/-- The complexity keys of the pricing model (shared schema
`COMPLEXITY_LEVELS`; also the keys of the `complexity_multiplier`
column default in `src/server/migrate.ts`). -/
def COMPLEXITY_LEVELS : List String := ["normal", "hard"]

/-- The `material_multiplier` column default of `pricing_rules`
(`src/server/migrate.ts` line 457): basic 1.0, standard 1.15,
premium 1.35. -/
def defaultMaterialMultiplier : String → Option ℚ := fun t =>
  if t = "basic" then some 1
  else if t = "standard" then some (23/20)
  else if t = "premium" then some (27/20)
  else none

/-- The `complexity_multiplier` column default of `pricing_rules`
(`src/server/migrate.ts` line 458): normal 1.0, hard 1.2. -/
def defaultComplexityMultiplier : String → Option ℚ := fun c =>
  if c = "normal" then some 1
  else if c = "hard" then some (6/5)
  else none

/-- The record computed by the `priceCalc` memo of
`src/client/src/pages/PhotoEstimate.tsx`. -/
structure PriceCalcResult where
  basePrice : ℚ
  anchorMult : ℚ
  matMult : ℚ
  compMult : ℚ
  unitPrice : ℚ
  totalEstimate : ℚ
  lowPrice : ℚ
  highPrice : ℚ
deriving Repr, DecidableEq

/-- The JS `x || d` fallback applied to a multiplier-map lookup: a
missing key or the value `0` (both falsy) fall back to the default. -/
def orDefault (x : Option ℚ) (d : ℚ) : ℚ :=
  match x with
  | some v => if v = 0 then d else v
  | none => d

/-- `priceCalc` from `src/client/src/pages/PhotoEstimate.tsx`
(lines 84-103), over exact rationals in place of JS doubles.
`anchorMultiplier` gets the `|| 1.15` fallback, the tier and complexity
lookups the `|| 1.0` fallback, and the high bound's lookups the
`|| 1.35` and `|| 1.2` fallbacks, exactly as in the source. -/
def priceCalc (basePrice anchorMultiplier : ℚ)
    (matMults compMults : String → Option ℚ)
    (materialTier complexity : String) (calculatedArea : ℚ) : PriceCalcResult :=
  let anchorMult := if anchorMultiplier = 0 then (23/20 : ℚ) else anchorMultiplier
  let matMult := orDefault (matMults materialTier) 1
  let compMult := orDefault (compMults complexity) 1
  let unitPrice := basePrice * anchorMult * matMult * compMult
  let totalEstimate := unitPrice * calculatedArea
  let lowMult := orDefault (matMults "basic") 1 * orDefault (compMults "normal") 1
  let highMult := orDefault (matMults "premium") (27/20) * orDefault (compMults "hard") (6/5)
  let lowPrice := basePrice * anchorMult * lowMult * calculatedArea
  let highPrice := basePrice * anchorMult * highMult * calculatedArea
  ⟨basePrice, anchorMult, matMult, compMult, unitPrice, totalEstimate, lowPrice, highPrice⟩

/-- Rounding to two decimals (cents), the display rule
(`toFixed(2)`) applied to the calculator's outputs. -/
def round2 (q : ℚ) : ℚ := (round (q * 100) : ℤ) / 100

/-- The pointwise boolean ordering on permission records: `permLE p q`
when every flag granted by `p` is granted by `q`. -/
def permLE (p q : Permissions) : Prop :=
  (p.canManageUsers = true → q.canManageUsers = true) ∧
  (p.canViewAllSpecialties = true → q.canViewAllSpecialties = true) ∧
  (p.canViewPrices = true → q.canViewPrices = true) ∧
  (p.canEditPrices = true → q.canEditPrices = true) ∧
  (p.canAudit = true → q.canAudit = true)

instance (p q : Permissions) : Decidable (permLE p q) := by
  unfold permLE; infer_instance

/-- The permission record granting every flag. -/
def ALL_TRUE : Permissions := ⟨true, true, true, true, true⟩

/-- The permission record granting no flag. -/
def ALL_FALSE : Permissions := ⟨false, false, false, false, false⟩

theorem band_left {a b : Bool} (h : (a && b) = true) : a = true := by
  cases a <;> cases b <;> simp_all

theorem band_right {a b : Bool} (h : (a && b) = true) : b = true := by
  cases a <;> cases b <;> simp_all

theorem and_imp_mono {a b a' b' : Bool} (ha : a = true → a' = true)
    (hb : b = true → b' = true) : (a && b) = true → (a' && b') = true := by
  intro h
  cases a' <;> cases b' <;> simp_all [ha (band_left h), hb (band_right h)]

theorem mem_insertByKey {α : Type} (key : α → Nat) (x a : α) (l : List α) :
    a ∈ insertByKey key x l ↔ a = x ∨ a ∈ l := by
  induction l with
  | nil => simp [insertByKey]
  | cons y rest ih =>
    simp only [insertByKey]
    split
    · simp
    · simp only [List.mem_cons, ih]
      tauto

theorem mem_sortByKey {α : Type} (key : α → Nat) (a : α) (l : List α) :
    a ∈ sortByKey key l ↔ a ∈ l := by
  induction l with
  | nil => simp [sortByKey]
  | cons x rest ih => simp [sortByKey, mem_insertByKey, ih]

/-- C1: `capPermissions` is the pointwise logical AND of the job-level
record and the company ceiling; it is monotone non-increasing in both
arguments under the pointwise boolean ordering, has `AllTrue` as a right
identity and `AllFalse` as a right absorber, and is idempotent in its
first argument. -/
theorem capPermissions_is_AND_monotone_capped (P C Pq Cq : Permissions)
    (hP : permLE P Pq) (hC : permLE C Cq) :
    ((capPermissions P C).canManageUsers = (P.canManageUsers && C.canManageUsers) ∧
     (capPermissions P C).canViewAllSpecialties = (P.canViewAllSpecialties && C.canViewAllSpecialties) ∧
     (capPermissions P C).canViewPrices = (P.canViewPrices && C.canViewPrices) ∧
     (capPermissions P C).canEditPrices = (P.canEditPrices && C.canEditPrices) ∧
     (capPermissions P C).canAudit = (P.canAudit && C.canAudit)) ∧
    permLE (capPermissions P C) P ∧
    permLE (capPermissions P C) C ∧
    permLE (capPermissions P C) (capPermissions Pq Cq) ∧
    capPermissions P ALL_TRUE = P ∧
    capPermissions P ALL_FALSE = ALL_FALSE ∧
    capPermissions (capPermissions P C) C = capPermissions P C := by
  obtain ⟨h1, h2, h3, h4, h5⟩ := hP
  obtain ⟨g1, g2, g3, g4, g5⟩ := hC
  refine ⟨⟨rfl, rfl, rfl, rfl, rfl⟩, ?_, ?_, ?_, ?_, ?_, ?_⟩
  · exact ⟨fun h => band_left h, fun h => band_left h,
      fun h => band_left h, fun h => band_left h,
      fun h => band_left h⟩
  · exact ⟨fun h => band_right h, fun h => band_right h,
      fun h => band_right h, fun h => band_right h,
      fun h => band_right h⟩
  · exact ⟨and_imp_mono h1 g1, and_imp_mono h2 g2, and_imp_mono h3 g3,
      and_imp_mono h4 g4, and_imp_mono h5 g5⟩
  · cases P; simp [capPermissions, ALL_TRUE]
  · cases P; simp [capPermissions, ALL_FALSE]
  · cases P; cases C
    simp [capPermissions, Bool.and_assoc]

/-- Witness for C1 at concrete permission records. -/
theorem capPermissions_is_AND_monotone_capped_witness :
    permLE ⟨true, false, true, false, true⟩ ⟨true, true, true, false, true⟩ ∧
    capPermissions ⟨true, false, true, false, true⟩ ALL_TRUE = ⟨true, false, true, false, true⟩ :=
  ⟨by decide,
   (capPermissions_is_AND_monotone_capped
      ⟨true, false, true, false, true⟩ ⟨false, true, true, true, false⟩
      ⟨true, true, true, false, true⟩ ⟨false, true, true, true, true⟩
      (by decide) (by decide)).2.2.2.2.1⟩

/-- C2: for every database state, a caller whose company role is SUPPORT
gets the empty allowed-specialty set, an empty job list with all-zero
stats, and an empty service list; the check precedes every other rule,
so no stored flag or assignment can override it. -/
theorem support_role_sees_nothing (db : DB) (userId companyId : Nat) (sid : Option Nat) :
    getAllowedSpecialtyIds db userId companyId "SUPPORT" = [] ∧
    getJobs db userId "SUPPORT" companyId = ⟨[], zeroStats⟩ ∧
    getServices db companyId userId "SUPPORT" sid = [] :=
  ⟨rfl, rfl, rfl⟩

theorem mem_getJobs_user_items (db : DB) (userId companyId : Nat) (j : JobRow) :
    j ∈ (getJobs db userId "USER" companyId).items ↔
      j ∈ db.jobs ∧ j.companyId = companyId ∧
      ((∃ a ∈ db.jobAssignments, a.userId = userId ∧ a.jobId = j.id) ∨
       (∃ s, j.specialtyId = some s ∧ s ≠ 0 ∧
         s ∈ getAllowedSpecialtyIds db userId companyId "USER")) := by
  have hsupp : ("USER" : String) ≠ "SUPPORT" := by decide
  have hoa : ¬(("USER" : String) = "OWNER" ∨ ("USER" : String) = "ADMIN") := by decide
  simp only [getJobs, if_neg hsupp, if_neg hoa]
  split
  · rename_i hempty
    have hassign : (db.jobAssignments.filter (fun a => a.userId == userId)) = [] := by
      have h1 := band_left hempty
      simp only [beq_iff_eq, List.length_map, List.length_eq_zero] at h1
      exact h1
    have hspec : getAllowedSpecialtyIds db userId companyId "USER" = [] := by
      have h2 := band_right hempty
      simp only [beq_iff_eq, List.length_eq_zero] at h2
      exact h2
    simp only [List.not_mem_nil, false_iff]
    rintro ⟨hj, hc, hdisj⟩
    rcases hdisj with ⟨a, ha, hau, haj⟩ | ⟨s, _, _, hsmem⟩
    · have : a ∈ db.jobAssignments.filter (fun a => a.userId == userId) := by
        rw [List.mem_filter]
        exact ⟨ha, by simpa using hau⟩
      rw [hassign] at this
      exact List.not_mem_nil a this
    · rw [hspec] at hsmem
      exact List.not_mem_nil s hsmem
  · rename_i hnonempty
    constructor
    · intro hmem
      simp only [List.mem_map] at hmem
      obtain ⟨j', hj', hjeq⟩ := hmem
      subst hjeq
      rw [List.mem_filter] at hj'
      obtain ⟨hin, hpred⟩ := hj'
      rw [mem_sortByKey, List.mem_filter] at hin
      refine ⟨hin.1, by simpa using hin.2, ?_⟩
      rw [Bool.or_eq_true] at hpred
      rcases hpred with hcont | hmatch
      · left
        rw [List.contains_iff_exists_mem_beq] at hcont
        obtain ⟨jid, hjid, hbeq⟩ := hcont
        simp only [List.mem_map, List.mem_filter] at hjid
        obtain ⟨a, ⟨hamem, hau⟩, haj⟩ := hjid
        exact ⟨a, hamem, by simpa using hau, by rw [haj]; symm; simpa using hbeq⟩
      · right
        cases hsid : j'.specialtyId with
        | none => rw [hsid] at hmatch; simp at hmatch
        | some s =>
          rw [hsid] at hmatch
          simp only [Bool.and_eq_true] at hmatch
          refine ⟨s, rfl, by simpa using hmatch.1, ?_⟩
          have := hmatch.2
          rw [List.contains_iff_exists_mem_beq] at this
          obtain ⟨t, ht, hbeq⟩ := this
          have : s = t := by simpa using hbeq
          rwa [this]
    · rintro ⟨hj, hc, hdisj⟩
      simp only [List.mem_map]
      refine ⟨j, ?_, rfl⟩
      rw [List.mem_filter]
      constructor
      · rw [mem_sortByKey, List.mem_filter]
        exact ⟨hj, by simpa using hc⟩
      · rw [Bool.or_eq_true]
        rcases hdisj with ⟨a, ha, hau, haj⟩ | ⟨s, hsid, hs0, hsmem⟩
        · left
          rw [List.contains_iff_exists_mem_beq]
          refine ⟨j.id, ?_, by simp⟩
          simp only [List.mem_map, List.mem_filter]
          exact ⟨a, ⟨ha, by simpa using hau⟩, haj⟩
        · right
          rw [hsid]
          simp only [Bool.and_eq_true]
          refine ⟨by simpa using hs0, ?_⟩
          rw [List.contains_iff_exists_mem_beq]
          exact ⟨s, hsmem, by simp⟩

/-- C3: resolution order of `getAllowedSpecialtyIds` for non-SUPPORT
roles: OWNER always gets the full specialty set of the company's trade;
ADMIN gets it exactly when the company-level `canViewAllSpecialties`
flag is truthy; otherwise (ADMIN without the flag, or role USER) the
result is the explicit assignment set, possibly empty. -/
theorem allowedSpecialtyIds_role_resolution (db : DB) (userId companyId : Nat) :
    getAllowedSpecialtyIds db userId companyId "OWNER" = tradeSpecialtyIds db companyId ∧
    (truthy (getCompanyUserPermissions db companyId userId).canViewAllSpecialties = true →
      getAllowedSpecialtyIds db userId companyId "ADMIN" = tradeSpecialtyIds db companyId) ∧
    (truthy (getCompanyUserPermissions db companyId userId).canViewAllSpecialties = false →
      getAllowedSpecialtyIds db userId companyId "ADMIN" =
        explicitSpecialtyIds db userId companyId) ∧
    getAllowedSpecialtyIds db userId companyId "USER" =
      explicitSpecialtyIds db userId companyId := by
  refine ⟨?_, ?_, ?_, ?_⟩
  · simp [getAllowedSpecialtyIds]
  · intro h
    simp [getAllowedSpecialtyIds, h]
  · intro h
    simp [getAllowedSpecialtyIds, h]
  · simp [getAllowedSpecialtyIds]

/-- Witness for C3 on a concrete database: an ADMIN whose stored
permission blob parses with a truthy `canViewAllSpecialties` sees the
whole trade; with a falsy one they fall back to explicit assignments. -/
theorem allowedSpecialtyIds_role_resolution_witness :
    getAllowedSpecialtyIds
        ⟨fun _ => some (JValue.jobj [("canViewAllSpecialties", JValue.jbool true)]),
         [⟨1, some 1⟩], [⟨1, 1⟩, ⟨2, 1⟩], [⟨11, 1, 2⟩],
         [⟨1, 11, "ADMIN", true, some "pv"⟩], [], [], [], []⟩ 11 1 "ADMIN" = [1, 2] := by
  have h := (allowedSpecialtyIds_role_resolution
    ⟨fun _ => some (JValue.jobj [("canViewAllSpecialties", JValue.jbool true)]),
     [⟨1, some 1⟩], [⟨1, 1⟩, ⟨2, 1⟩], [⟨11, 1, 2⟩],
     [⟨1, 11, "ADMIN", true, some "pv"⟩], [], [], [], []⟩ 11 1).2.1 (by decide)
  rw [h]
  decide

/-- C4: OWNER and ADMIN callers see every job of the company,
unfiltered; a USER sees exactly the union of directly assigned jobs and
jobs whose specialty lies in their resolved allowed-specialty set (the
hypothesis that `0` is not an allowed specialty id holds for any real
database, ids being positive serials). -/
theorem getJobs_visibility_by_role (db : DB) (userId companyId : Nat) (j : JobRow)
    (role : String) (hrole : role = "OWNER" ∨ role = "ADMIN")
    (h0 : (0 : Nat) ∉ getAllowedSpecialtyIds db userId companyId "USER") :
    (j ∈ (getJobs db userId role companyId).items ↔
      j ∈ db.jobs ∧ j.companyId = companyId) ∧
    (j ∈ (getJobs db userId "USER" companyId).items ↔
      j ∈ db.jobs ∧ j.companyId = companyId ∧
      ((∃ a ∈ db.jobAssignments, a.userId = userId ∧ a.jobId = j.id) ∨
       (∃ s, j.specialtyId = some s ∧
         s ∈ getAllowedSpecialtyIds db userId companyId "USER"))) := by
  constructor
  · have hitems : (getJobs db userId role companyId).items =
        sortByKey (·.createdAt) (db.jobs.filter (fun k => k.companyId == companyId)) := by
      rcases hrole with rfl | rfl <;> simp [getJobs]
    rw [hitems, mem_sortByKey, List.mem_filter]
    simp
  · rw [mem_getJobs_user_items]
    constructor
    · rintro ⟨hj, hc, hdisj⟩
      refine ⟨hj, hc, ?_⟩
      rcases hdisj with h | ⟨s, hsid, _, hsmem⟩
      · exact Or.inl h
      · exact Or.inr ⟨s, hsid, hsmem⟩
    · rintro ⟨hj, hc, hdisj⟩
      refine ⟨hj, hc, ?_⟩
      rcases hdisj with h | ⟨s, hsid, hsmem⟩
      · exact Or.inl h
      · refine Or.inr ⟨s, hsid, ?_, hsmem⟩
        rintro rfl
        exact h0 hsmem

/-- Witness for C4: a USER assigned to specialty 1 and directly assigned
to job 3 (whose specialty 3 is outside their set) sees jobs 1 and 3 but
not job 2. -/
theorem getJobs_visibility_by_role_witness :
    let wdb : DB :=
      ⟨fun _ => none, [⟨1, some 1⟩], [⟨1, 1⟩, ⟨2, 1⟩, ⟨3, 1⟩], [⟨13, 1, 1⟩],
       [⟨1, 13, "USER", true, none⟩],
       [⟨1, 1, some 1, "DRAFT", 0⟩, ⟨2, 1, some 2, "SENT", 1⟩, ⟨3, 1, some 3, "DONE", 2⟩],
       [], [⟨3, 13, none⟩], []⟩
    (⟨1, 1, some 1, "DRAFT", 0⟩ : JobRow) ∈ (getJobs wdb 13 "OWNER" 1).items ∧
    ((⟨2, 1, some 2, "SENT", 1⟩ : JobRow) ∈ (getJobs wdb 13 "USER" 1).items ↔
      (⟨2, 1, some 2, "SENT", 1⟩ : JobRow) ∈ wdb.jobs ∧ (1 : Nat) = 1 ∧
      ((∃ a ∈ wdb.jobAssignments, a.userId = 13 ∧ a.jobId = 2) ∨
       (∃ s, (some 2 : Option Nat) = some s ∧ s ∈ getAllowedSpecialtyIds wdb 13 1 "USER"))) := by
  intro wdb
  constructor
  · exact ((getJobs_visibility_by_role wdb 13 1 ⟨1, 1, some 1, "DRAFT", 0⟩ "OWNER"
      (Or.inl rfl) (by decide)).1).mpr (by decide)
  · exact (getJobs_visibility_by_role wdb 13 1 ⟨2, 1, some 2, "SENT", 1⟩ "OWNER"
      (Or.inl rfl) (by decide)).2

/-- C9: for a USER, `getJob` returns the job only through a direct
assignment row; without one it returns `undefined` even when the job's
specialty is in the user's allowed set — although the very same job does
appear in the `getJobs` listing through the specialty match. -/
theorem getJob_user_requires_assignment (db : DB) (id userId companyId : Nat) (j : JobRow)
    (hmem : j ∈ db.jobs) (_hid : j.id = id) (hco : j.companyId = companyId)
    (hassign : ∀ a ∈ db.jobAssignments, ¬(a.jobId = id ∧ a.userId = userId))
    (s : Nat) (hs : j.specialtyId = some s) (hs0 : s ≠ 0)
    (hsallow : s ∈ getAllowedSpecialtyIds db userId companyId "USER") :
    getJob db id userId "USER" companyId = none ∧
    j ∈ (getJobs db userId "USER" companyId).items := by
  constructor
  · have hfilter : db.jobAssignments.filter (fun a => a.jobId == id && a.userId == userId) = [] := by
      rw [List.filter_eq_nil_iff]
      intro a ha
      have := hassign a ha
      simp only [Bool.and_eq_true, beq_iff_eq, not_and]
      intro h1 h2
      exact this ⟨h1, h2⟩
    simp only [getJob, if_neg (by decide : ¬("USER" : String) = "SUPPORT")]
    cases hfind : db.jobs.find? (fun k => k.id == id && k.companyId == companyId) with
    | none => rfl
    | some job =>
      simp only [if_neg (by decide : ¬(("USER" : String) = "OWNER" ∨ ("USER" : String) = "ADMIN")),
        hfilter, List.head?_nil]
  · rw [mem_getJobs_user_items]
    exact ⟨hmem, hco, Or.inr ⟨s, hs, hs0, hsallow⟩⟩

/-- Witness for C9: job 2's specialty 2 is allowed to user 13, but there
is no assignment row for (2, 13), so the detail view is `none` while the
listing contains job 2. -/
theorem getJob_user_requires_assignment_witness :
    let wdb : DB :=
      ⟨fun _ => none, [⟨1, some 1⟩], [⟨2, 1⟩], [⟨13, 1, 2⟩],
       [⟨1, 13, "USER", true, none⟩],
       [⟨2, 1, some 2, "SENT", 1⟩], [], [⟨3, 13, none⟩], []⟩
    getJob wdb 2 13 "USER" 1 = none ∧
    (⟨2, 1, some 2, "SENT", 1⟩ : JobRow) ∈ (getJobs wdb 13 "USER" 1).items := by
  intro wdb
  exact getJob_user_requires_assignment wdb 2 13 1 ⟨2, 1, some 2, "SENT", 1⟩
    (by decide) rfl rfl (by decide) 2 rfl (by decide) (by decide)

/-- C5: unresolvable data fails closed.  For a company id with no
`companies` row (in a database satisfying the schema's referential
integrity: `user_specialties`/`company_users` rows reference existing
companies, and specialty trade ids are nonzero serials), the trade-id
lookup yields the sentinel `0`, the allowed-specialty set is empty for
every role, and a user without a membership row gets the all-false
baseline permissions — no error is raised anywhere. -/
theorem fail_closed_on_missing_data (db : DB) (userId companyId : Nat) (role : String)
    (hco : ∀ c ∈ db.companies, c.id ≠ companyId)
    (hspec : ∀ s ∈ db.specialties, s.tradeId ≠ 0)
    (hfkUS : ∀ r ∈ db.userSpecialties, ∃ c ∈ db.companies, c.id = r.companyId)
    (hfkCU : ∀ cu ∈ db.companyUsers, ∃ c ∈ db.companies, c.id = cu.companyId) :
    getCompanyTradeId db companyId = 0 ∧
    getAllowedSpecialtyIds db userId companyId role = [] ∧
    getCompanyUserPermissions db companyId userId = DEFAULT_EMPLOYEE_PERMISSIONS.toJ ∧
    (getCompanyUserPermissions db companyId userId).toB = ALL_FALSE := by
  have hfind : db.companies.find? (fun c => c.id == companyId) = none := by
    rw [List.find?_eq_none]
    intro c hc
    simpa using hco c hc
  have htid : getCompanyTradeId db companyId = 0 := by
    simp [getCompanyTradeId, hfind]
  have htrade : tradeSpecialtyIds db companyId = [] := by
    unfold tradeSpecialtyIds
    rw [htid]
    have hnil : db.specialties.filter (fun s => s.tradeId == 0) = [] := by
      rw [List.filter_eq_nil_iff]
      intro s hs
      simpa using hspec s hs
    rw [hnil]
    rfl
  have hexpl : explicitSpecialtyIds db userId companyId = [] := by
    unfold explicitSpecialtyIds
    have hnil : db.userSpecialties.filter
        (fun r => r.userId == userId && r.companyId == companyId) = [] := by
      rw [List.filter_eq_nil_iff]
      intro r hr
      obtain ⟨c, hcmem, hcid⟩ := hfkUS r hr
      simp only [Bool.and_eq_true, beq_iff_eq, not_and]
      intro _ hrc
      exact hco c hcmem (hcid.trans hrc)
    rw [hnil]
    rfl
  have hcufind : db.companyUsers.find?
      (fun cu => cu.companyId == companyId && cu.userId == userId) = none := by
    rw [List.find?_eq_none]
    intro cu hcu
    obtain ⟨c, hcmem, hcid⟩ := hfkCU cu hcu
    simp only [Bool.and_eq_true, beq_iff_eq, not_and]
    intro hcc _
    exact hco c hcmem (hcid.trans hcc)
  have hperm : getCompanyUserPermissions db companyId userId =
      DEFAULT_EMPLOYEE_PERMISSIONS.toJ := by
    simp [getCompanyUserPermissions, hcufind]
  refine ⟨htid, ?_, hperm, by rw [hperm]; rfl⟩
  simp only [getAllowedSpecialtyIds, hperm]
  split
  · rfl
  · split
    · split
      · exact htrade
      · exact hexpl
    · exact hexpl

/-- Witness for C5: company 99 does not exist, user 7 has no membership
row anywhere. -/
theorem fail_closed_on_missing_data_witness :
    getCompanyTradeId ⟨fun _ => none, [⟨1, some 1⟩], [⟨1, 1⟩], [⟨13, 1, 1⟩],
        [⟨1, 13, "USER", true, none⟩], [], [], [], []⟩ 99 = 0 ∧
    getAllowedSpecialtyIds ⟨fun _ => none, [⟨1, some 1⟩], [⟨1, 1⟩], [⟨13, 1, 1⟩],
        [⟨1, 13, "USER", true, none⟩], [], [], [], []⟩ 7 99 "OWNER" = [] ∧
    getCompanyUserPermissions ⟨fun _ => none, [⟨1, some 1⟩], [⟨1, 1⟩], [⟨13, 1, 1⟩],
        [⟨1, 13, "USER", true, none⟩], [], [], [], []⟩ 99 7 =
      DEFAULT_EMPLOYEE_PERMISSIONS.toJ ∧
    (getCompanyUserPermissions ⟨fun _ => none, [⟨1, some 1⟩], [⟨1, 1⟩], [⟨13, 1, 1⟩],
        [⟨1, 13, "USER", true, none⟩], [], [], [], []⟩ 99 7).toB = ALL_FALSE :=
  fail_closed_on_missing_data
    ⟨fun _ => none, [⟨1, some 1⟩], [⟨1, 1⟩], [⟨13, 1, 1⟩],
     [⟨1, 13, "USER", true, none⟩], [], [], [], []⟩ 7 99 "OWNER"
    (by decide) (by decide) (by decide) (by decide)

/-- C6: price redaction is a pure transformation.  `stripPrices`
produces a list of the same length whose i-th element is a copy of the
i-th input element with only `unitPrice` nulled out (all other fields
preserved; the input list is untouched — the source builds fresh objects
by spread, which the pure embedding reflects); the services route passes
the list through unchanged exactly when the caller's `canViewPrices`
flag is truthy; and in `getJob`, a USER whose effective capped
`canViewPrices` is false receives line items whose `unitPrice` and
`lineTotal` are overwritten with `"0"`, while a truthy flag leaves the
stored items untouched. -/
theorem price_redaction_pure (db : DB) (companyId userId id : Nat) (role : String)
    (l : List ServiceRow) (d : JobDetail) (p : Permissions)
    (hj : getJob db id userId "USER" companyId = some d)
    (hp : d.permissions = some p) :
    (stripPrices l).length = l.length ∧
    (∀ i : Nat, (stripPrices l)[i]? =
      (l[i]?).map (fun s : ServiceRow => { s with unitPrice := none })) ∧
    (∀ t ∈ stripPrices l, t.unitPrice = none) ∧
    (truthy (getCompanyUserPermissions db companyId userId).canViewPrices = true →
      servicesListRoute db companyId userId role = getServices db companyId userId role none) ∧
    (truthy (getCompanyUserPermissions db companyId userId).canViewPrices = false →
      servicesListRoute db companyId userId role =
        stripPrices (getServices db companyId userId role none)) ∧
    (p.canViewPrices = false → ∀ it ∈ d.items, it.unitPrice = "0" ∧ it.lineTotal = "0") ∧
    (p.canViewPrices = true → d.items = db.jobItems.filter (fun it => it.jobId == id)) := by
  refine ⟨by simp [stripPrices], ?_, ?_, ?_, ?_, ?_⟩
  · intro i
    simp [stripPrices]
  · intro t ht
    simp only [stripPrices, List.mem_map] at ht
    obtain ⟨s, _, hs⟩ := ht
    rw [← hs]
  · intro h
    simp [servicesListRoute, h]
  · intro h
    simp [servicesListRoute, h]
  · simp only [getJob, if_neg (by decide : ¬("USER" : String) = "SUPPORT")] at hj
    split at hj
    · exact absurd hj (by simp)
    · rw [if_neg (by decide : ¬(("USER" : String) = "OWNER" ∨ ("USER" : String) = "ADMIN"))] at hj
      split at hj
      · exact absurd hj (by simp)
      · simp only [Option.some_inj] at hj
        subst hj
        simp only [Option.some_inj] at hp
        subst hp
        constructor
        · intro hcv
          simp only [hcv, Bool.false_eq_true, if_false]
          intro it hit
          simp only [List.mem_map] at hit
          obtain ⟨it0, _, hit0⟩ := hit
          rw [← hit0]
          exact ⟨rfl, rfl⟩
        · intro hcv
          simp only [hcv, if_true]

/-- A small concrete database: one company, one USER member with no
stored permission blob (so the all-false baseline applies), one job with
one line item, assigned to the user. -/
def wdbRedact : DB :=
  ⟨fun _ => none, [⟨1, some 1⟩], [⟨1, 1⟩], [⟨13, 1, 1⟩],
   [⟨1, 13, "USER", true, none⟩],
   [⟨5, 1, some 1, "DRAFT", 0⟩], [⟨1, 5, "120.00", "240.00"⟩],
   [⟨5, 13, none⟩], [⟨1, 1, 1, true, some "120.00"⟩]⟩

/-- Witness for C6: with `canViewPrices` falsy the services route
redacts, and the job detail returned to the assigned USER carries items
with zeroed price fields. -/
theorem price_redaction_pure_witness :
    servicesListRoute wdbRedact 1 13 "USER" =
      stripPrices (getServices wdbRedact 1 13 "USER" none) ∧
    (∀ it ∈ (⟨⟨5, 1, some 1, "DRAFT", 0⟩, [⟨1, 5, "0", "0"⟩], "USER",
        some ⟨false, false, false, false, false⟩,
        some DEFAULT_EMPLOYEE_PERMISSIONS.toJ⟩ : JobDetail).items,
      it.unitPrice = "0" ∧ it.lineTotal = "0") := by
  have h := price_redaction_pure wdbRedact 1 13 5 "USER"
    [⟨1, 1, 1, true, some "120.00"⟩]
    ⟨⟨5, 1, some 1, "DRAFT", 0⟩, [⟨1, 5, "0", "0"⟩], "USER",
     some ⟨false, false, false, false, false⟩, some DEFAULT_EMPLOYEE_PERMISSIONS.toJ⟩
    ⟨false, false, false, false, false⟩ rfl rfl
  exact ⟨h.2.2.2.2.1 rfl, h.2.2.2.2.2.1 rfl⟩

theorem getJobs_stats_def (db : DB) (userId : Nat) (role : String) (companyId : Nat) :
    (getJobs db userId role companyId).stats =
      statsFor (getJobs db userId role companyId).items := by
  unfold getJobs
  split
  · rfl
  · split
    · rfl
    · dsimp only
      split
      · rfl
      · rfl

theorem status_count_partition (l : List JobRow)
    (h : ∀ j ∈ l, j.status ∈ ["DRAFT", "SENT", "APPROVED", "SCHEDULED", "IN_PROGRESS", "DONE"]) :
    (l.filter (fun j => j.status == "DRAFT")).length +
    (l.filter (fun j => j.status == "SENT")).length +
    (l.filter (fun j => j.status == "APPROVED")).length +
    (l.filter (fun j => j.status == "IN_PROGRESS")).length +
    (l.filter (fun j => j.status == "DONE")).length +
    (l.filter (fun j => j.status == "SCHEDULED")).length = l.length := by
  induction l with
  | nil => rfl
  | cons x rest ih =>
    have hx := h x (List.mem_cons_self x rest)
    have hrest := ih (fun j hj => h j (List.mem_cons_of_mem x hj))
    simp only [List.mem_cons, List.not_mem_nil, or_false] at hx
    rcases hx with h1 | h1 | h1 | h1 | h1 | h1 <;>
      simp [List.filter_cons, h1] <;> omega

/-- C7 (amended): the stats of a `getJobs` response are a count-by-
status reduction over the returned items for the five counted statuses
(`DRAFT`, `SENT`, `APPROVED`, `IN_PROGRESS`, `DONE`); there is no
counter for `SCHEDULED`, so when every item's status is drawn from the
fixed six-status set the five counters sum to `total` minus the number
of `SCHEDULED` items. -/
theorem getJobs_stats_reduction (db : DB) (userId : Nat) (role : String) (companyId : Nat)
    (h : ∀ j ∈ (getJobs db userId role companyId).items,
      j.status ∈ ["DRAFT", "SENT", "APPROVED", "SCHEDULED", "IN_PROGRESS", "DONE"]) :
    (getJobs db userId role companyId).stats.total =
      (getJobs db userId role companyId).items.length ∧
    (getJobs db userId role companyId).stats.drafts =
      ((getJobs db userId role companyId).items.filter (fun j => j.status == "DRAFT")).length ∧
    (getJobs db userId role companyId).stats.sent =
      ((getJobs db userId role companyId).items.filter (fun j => j.status == "SENT")).length ∧
    (getJobs db userId role companyId).stats.approved =
      ((getJobs db userId role companyId).items.filter (fun j => j.status == "APPROVED")).length ∧
    (getJobs db userId role companyId).stats.inProgress =
      ((getJobs db userId role companyId).items.filter (fun j => j.status == "IN_PROGRESS")).length ∧
    (getJobs db userId role companyId).stats.done =
      ((getJobs db userId role companyId).items.filter (fun j => j.status == "DONE")).length ∧
    (getJobs db userId role companyId).stats.drafts +
      (getJobs db userId role companyId).stats.sent +
      (getJobs db userId role companyId).stats.approved +
      (getJobs db userId role companyId).stats.inProgress +
      (getJobs db userId role companyId).stats.done +
      ((getJobs db userId role companyId).items.filter (fun j => j.status == "SCHEDULED")).length =
      (getJobs db userId role companyId).stats.total := by
  rw [getJobs_stats_def db userId role companyId]
  refine ⟨rfl, rfl, rfl, rfl, rfl, rfl, ?_⟩
  exact status_count_partition (getJobs db userId role companyId).items h

/-- A database holding a single `SCHEDULED` job of company 1. -/
def schedDB : DB :=
  ⟨fun _ => none, [⟨1, some 1⟩], [], [], [], [⟨1, 1, some 1, "SCHEDULED", 0⟩], [], [], []⟩

/-- Counterexample to C7 as stated: with one visible `SCHEDULED` job the
response's five per-status counters sum to 0, not to `stats.total = 1`,
because the stats record has no `SCHEDULED` bucket. -/
theorem getJobs_stats_not_a_partition :
    (⟨1, 1, some 1, "SCHEDULED", 0⟩ : JobRow) ∈ (getJobs schedDB 1 "OWNER" 1).items ∧
    (getJobs schedDB 1 "OWNER" 1).stats.total = 1 ∧
    (getJobs schedDB 1 "OWNER" 1).stats.drafts + (getJobs schedDB 1 "OWNER" 1).stats.sent +
      (getJobs schedDB 1 "OWNER" 1).stats.approved +
      (getJobs schedDB 1 "OWNER" 1).stats.inProgress +
      (getJobs schedDB 1 "OWNER" 1).stats.done ≠ (getJobs schedDB 1 "OWNER" 1).stats.total := by
  refine ⟨?_, rfl, ?_⟩ <;> decide

/-- Witness for the amended C7 on a mixed two-job database. -/
theorem getJobs_stats_reduction_witness :
    (getJobs ⟨fun _ => none, [⟨1, some 1⟩], [], [], [],
        [⟨1, 1, some 1, "DRAFT", 0⟩, ⟨2, 1, some 1, "SCHEDULED", 1⟩], [], [], []⟩
      1 "OWNER" 1).stats.total =
      (getJobs ⟨fun _ => none, [⟨1, some 1⟩], [], [], [],
        [⟨1, 1, some 1, "DRAFT", 0⟩, ⟨2, 1, some 1, "SCHEDULED", 1⟩], [], [], []⟩
      1 "OWNER" 1).items.length :=
  (getJobs_stats_reduction ⟨fun _ => none, [⟨1, some 1⟩], [], [], [],
      [⟨1, 1, some 1, "DRAFT", 0⟩, ⟨2, 1, some 1, "SCHEDULED", 1⟩], [], [], []⟩
    1 "OWNER" 1 (by decide)).1

/-- C8: with the database-default multiplier tables and the default
anchor 1.15, the calculator computes
`unitPrice = basePrice × anchor × materialMult × complexityMult` and
`total = unitPrice × quantity`; the displayed low bound uses the
basic × normal combination and the high bound premium × hard, and these
do bound the estimate for every tier/complexity choice; on
`basePrice = 100` with `standard`/`normal` and quantity 1 the displayed
(2-decimal-rounded) figures are 132.25, 115.00 and 186.30. -/
theorem priceCalc_formula_and_bounds (basePrice area : ℚ) (tier comp : String)
    (hb : 0 ≤ basePrice) (ha : 0 ≤ area)
    (ht : tier ∈ MATERIAL_TIERS) (hc : comp ∈ COMPLEXITY_LEVELS) :
    (priceCalc basePrice (23/20) defaultMaterialMultiplier defaultComplexityMultiplier
        tier comp area).unitPrice =
      basePrice * (23/20) * ((defaultMaterialMultiplier tier).getD 1) *
        ((defaultComplexityMultiplier comp).getD 1) ∧
    (priceCalc basePrice (23/20) defaultMaterialMultiplier defaultComplexityMultiplier
        tier comp area).totalEstimate =
      (priceCalc basePrice (23/20) defaultMaterialMultiplier defaultComplexityMultiplier
        tier comp area).unitPrice * area ∧
    (priceCalc basePrice (23/20) defaultMaterialMultiplier defaultComplexityMultiplier
        tier comp area).lowPrice =
      basePrice * (23/20) *
        ((defaultMaterialMultiplier "basic").getD 1 *
         (defaultComplexityMultiplier "normal").getD 1) * area ∧
    (priceCalc basePrice (23/20) defaultMaterialMultiplier defaultComplexityMultiplier
        tier comp area).highPrice =
      basePrice * (23/20) *
        ((defaultMaterialMultiplier "premium").getD 1 *
         (defaultComplexityMultiplier "hard").getD 1) * area ∧
    (priceCalc basePrice (23/20) defaultMaterialMultiplier defaultComplexityMultiplier
        tier comp area).lowPrice ≤
      (priceCalc basePrice (23/20) defaultMaterialMultiplier defaultComplexityMultiplier
        tier comp area).totalEstimate ∧
    (priceCalc basePrice (23/20) defaultMaterialMultiplier defaultComplexityMultiplier
        tier comp area).totalEstimate ≤
      (priceCalc basePrice (23/20) defaultMaterialMultiplier defaultComplexityMultiplier
        tier comp area).highPrice ∧
    round2 (priceCalc 100 (23/20) defaultMaterialMultiplier defaultComplexityMultiplier
      "standard" "normal" 1).unitPrice = 529/4 ∧
    round2 (priceCalc 100 (23/20) defaultMaterialMultiplier defaultComplexityMultiplier
      "standard" "normal" 1).lowPrice = 115 ∧
    round2 (priceCalc 100 (23/20) defaultMaterialMultiplier defaultComplexityMultiplier
      "standard" "normal" 1).highPrice = 1863/10 := by
  have ht' : tier = "basic" ∨ tier = "standard" ∨ tier = "premium" := by
    simpa [MATERIAL_TIERS] using ht
  have hc' : comp = "normal" ∨ comp = "hard" := by
    simpa [COMPLEXITY_LEVELS] using hc
  have hba : 0 ≤ basePrice * area := mul_nonneg hb ha
  have dm1 : defaultMaterialMultiplier "basic" = some 1 := by
    simp only [defaultMaterialMultiplier, if_pos rfl, if_true]
  have dm2 : defaultMaterialMultiplier "standard" = some (23/20) := by
    simp only [defaultMaterialMultiplier,
      if_neg (by decide : ¬("standard" : String) = "basic"), if_pos rfl, if_true]
  have dm3 : defaultMaterialMultiplier "premium" = some (27/20) := by
    simp only [defaultMaterialMultiplier,
      if_neg (by decide : ¬("premium" : String) = "basic"),
      if_neg (by decide : ¬("premium" : String) = "standard"), if_true]
  have dc1 : defaultComplexityMultiplier "normal" = some 1 := by
    simp only [defaultComplexityMultiplier, if_pos rfl, if_true]
  have dc2 : defaultComplexityMultiplier "hard" = some (6/5) := by
    simp only [defaultComplexityMultiplier,
      if_neg (by decide : ¬("hard" : String) = "normal"), if_true]
  have hconc1 : round2 (priceCalc 100 (23/20) defaultMaterialMultiplier
      defaultComplexityMultiplier "standard" "normal" 1).unitPrice = 529/4 := by
    norm_num [priceCalc, orDefault, dm2, dc1, round2, round_eq]
  have hconc2 : round2 (priceCalc 100 (23/20) defaultMaterialMultiplier
      defaultComplexityMultiplier "standard" "normal" 1).lowPrice = 115 := by
    norm_num [priceCalc, orDefault, dm1, dm2, dm3, dc1, dc2, round2, round_eq]
  have hconc3 : round2 (priceCalc 100 (23/20) defaultMaterialMultiplier
      defaultComplexityMultiplier "standard" "normal" 1).highPrice = 1863/10 := by
    norm_num [priceCalc, orDefault, dm1, dm2, dm3, dc1, dc2, round2, round_eq]
  rcases ht' with rfl | rfl | rfl <;> rcases hc' with rfl | rfl <;>
    refine ⟨?_, ?_, ?_, ?_, ?_, ?_, hconc1, hconc2, hconc3⟩ <;>
    norm_num [priceCalc, orDefault, dm1, dm2, dm3, dc1, dc2] <;>
    nlinarith [hba]

/-- Witness for C8 at the spec's worked example. -/
theorem priceCalc_formula_and_bounds_witness :
    (priceCalc 100 (23/20) defaultMaterialMultiplier defaultComplexityMultiplier
        "standard" "normal" 1).unitPrice =
      100 * (23/20) * ((defaultMaterialMultiplier "standard").getD 1) *
        ((defaultComplexityMultiplier "normal").getD 1) :=
  (priceCalc_formula_and_bounds 100 1 "standard" "normal"
    (by norm_num) (by norm_num) (by decide) (by decide)).1

/-- C10: `parsePermissions` is total: a missing or empty raw string and
an unparsable string both yield the baseline record; a parsed non-object
contributes nothing; a parsed object is merged over the baseline so that
each of the five flags is present, taking the parsed value when the key
occurs and the baseline (false) value otherwise. -/
theorem parsePermissions_total_merge (parse : String → Option JValue) (s : String)
    (v : JValue) (fields : List (String × JValue)) :
    parsePermissions parse none = DEFAULT_EMPLOYEE_PERMISSIONS.toJ ∧
    parsePermissions parse (some "") = DEFAULT_EMPLOYEE_PERMISSIONS.toJ ∧
    (s ≠ "" → parse s = none →
      parsePermissions parse (some s) = DEFAULT_EMPLOYEE_PERMISSIONS.toJ) ∧
    (s ≠ "" → parse s = some v → (∀ fs, v ≠ JValue.jobj fs) →
      parsePermissions parse (some s) = DEFAULT_EMPLOYEE_PERMISSIONS.toJ) ∧
    (s ≠ "" → parse s = some (JValue.jobj fields) →
      parsePermissions parse (some s) =
        ⟨(objGet fields "canManageUsers").getD (JValue.jbool false),
         (objGet fields "canViewAllSpecialties").getD (JValue.jbool false),
         (objGet fields "canViewPrices").getD (JValue.jbool false),
         (objGet fields "canEditPrices").getD (JValue.jbool false),
         (objGet fields "canAudit").getD (JValue.jbool false)⟩) := by
  refine ⟨rfl, rfl, ?_, ?_, ?_⟩
  · intro hs hparse
    simp only [parsePermissions, if_neg hs, hparse]
  · intro hs hparse hnotobj
    simp only [parsePermissions, if_neg hs, hparse]
    cases v with
    | jobj fs => exact absurd rfl (hnotobj fs)
    | jnull => rfl
    | jbool b => rfl
    | jnum n => rfl
    | jstr t => rfl
    | jarr xs => rfl
  · intro hs hparse
    simp only [parsePermissions, if_neg hs, hparse]
    rfl

/-- Witness for C10: a parse oracle returning an object that sets only
`canViewPrices` yields a record whose other four flags keep the baseline
false. -/
theorem parsePermissions_total_merge_witness :
    parsePermissions
        (fun _ => some (JValue.jobj [("canViewPrices", JValue.jbool true)])) (some "x") =
      ⟨JValue.jbool false, JValue.jbool false, JValue.jbool true,
       JValue.jbool false, JValue.jbool false⟩ := by
  have h := (parsePermissions_total_merge
    (fun _ => some (JValue.jobj [("canViewPrices", JValue.jbool true)]))
    "x" JValue.jnull [("canViewPrices", JValue.jbool true)]).2.2.2.2
    (by decide) rfl
  rw [h]
  rfl

end RCF
